import Mathlib

/-!
Verification of the typed-lmdb layer (src/lib.rs): a typed table abstraction
over an embedded sorted key-value store.  The typed layer itself (Table,
TableHandle, TypedCursor, the comparator adapters, the fixed-layout composite
codecs) is translated from src/lib.rs.  The backing store (lmdb) is an
external collaborator that the spec assumes correct; its primitives
(database set, cursor positioning, duplicate ordering) are modelled from the
contract in the spec, sections 4.5, 4.6 and 6: a duplicate-enabled database
is a list of (key, value) entries kept sorted by key ascending and by the
installed duplicate comparator, with exact-byte-match duplicate collapsing.
-/

namespace TypedLmdb

/-- Error taxonomy of the store, after lmdb MdbError: the claims need
NotFound, KeyExists, and a catch-all for pass-through store errors. -/
inductive MdbError where
  | NotFound
  | KeyExists
  | Corrupted
  | Panic
  | StateError
  | Other (code : Int)
deriving DecidableEq, Repr

/-- Result type of every fallible operation, after lmdb MdbResult. -/
abbrev MdbResult (α : Type) : Type := Except MdbError α

/-- A raw byte span handed over the store boundary (each entry one byte). -/
abbrev ByteSpan : Type := List Nat

/-- Rust transmutes core cmp Ordering to i8: Less is -1, Equal 0, Greater 1.
This is the numeric convention both comparator adapters in src/lib.rs
(lines 298-311) use for their c_int return value. -/
def ordToInt : Ordering → Int
  | .lt => -1
  | .eq => 0
  | .gt => 1

/-! ## Raw codec for the fixed-layout composite types (src/lib.rs 321-372)

The composite key/value types are repr(C, packed) structures of
little-endian machine integers; to_mdb_value reinterprets the memory in
place, from_mdb_value asserts the span length equals the size of the type
and then reinterprets.  We model bytes explicitly: a w-byte little-endian
encoding of a Nat, and decoding that folds bytes back.  The fatal assertion
of from_mdb_value is modelled as Option.none. -/

/-- Little-endian byte encoding of a natural number over a given width. -/
def natToBytesLE : Nat → Nat → ByteSpan
  | 0, _ => []
  | w + 1, n => n % 256 :: natToBytesLE w (n / 256)

/-- Little-endian byte decoding. -/
def bytesToNatLE : ByteSpan → Nat
  | [] => 0
  | b :: bs => b + 256 * bytesToNatLE bs

theorem natToBytesLE_length (w n : Nat) : (natToBytesLE w n).length = w := by
  induction w generalizing n with
  | zero => rfl
  | succ w ih => simp [natToBytesLE, ih]

theorem bytesToNatLE_natToBytesLE (w n : Nat) :
    bytesToNatLE (natToBytesLE w n) = n % 256 ^ w := by
  induction w generalizing n with
  | zero => simp [natToBytesLE, bytesToNatLE, Nat.mod_one]
  | succ w ih =>
      have h : (256 : Nat) ^ (w + 1) = 256 * 256 ^ w := by ring
      simp [natToBytesLE, bytesToNatLE, ih, h, Nat.mod_mul]

/-- 64-bit id type (src/lib.rs line 322). -/
abbrev Id64 : Type := Nat

/-- 16-bit index type (src/lib.rs line 325). -/
abbrev Idx16 : Type := Nat

/-- A packed (Id64, Id64) tuple (src/lib.rs line 330). -/
structure Id64x2 where
  f0 : Id64
  f1 : Id64
deriving DecidableEq, Repr

namespace Id64x2

/-- Byte size of the packed Id64x2 layout. -/
def byteSize : Nat := 16

/-- In-place reinterpretation of the packed struct as bytes
(src/lib.rs 343-349): field-major little-endian layout, no padding. -/
def to_mdb_value (x : Id64x2) : ByteSpan :=
  natToBytesLE 8 x.f0 ++ natToBytesLE 8 x.f1

/-- Decoding from a raw span (src/lib.rs 332-341).  The source asserts the
span size equals the struct size and reinterprets; the fatal assertion is
modelled as none. -/
def from_mdb_value (value : ByteSpan) : Option Id64x2 :=
  if value.length = byteSize then
    some ⟨bytesToNatLE (value.take 8), bytesToNatLE (value.drop 8)⟩
  else
    none

end Id64x2

/-- A packed (Idx16, Id64) tuple (src/lib.rs line 353). -/
structure Idx16Id64 where
  f0 : Idx16
  f1 : Id64
deriving DecidableEq, Repr

namespace Idx16Id64

/-- Byte size of the packed Idx16Id64 layout. -/
def byteSize : Nat := 10

/-- In-place reinterpretation of the packed struct as bytes
(src/lib.rs 366-372). -/
def to_mdb_value (x : Idx16Id64) : ByteSpan :=
  natToBytesLE 2 x.f0 ++ natToBytesLE 8 x.f1

/-- Decoding from a raw span (src/lib.rs 355-364), fatal length assertion
modelled as none. -/
def from_mdb_value (value : ByteSpan) : Option Idx16Id64 :=
  if value.length = byteSize then
    some ⟨bytesToNatLE (value.take 2), bytesToNatLE (value.drop 2)⟩
  else
    none

end Idx16Id64

/-! ## Comparator adapters (src/lib.rs 298-311)

The store hands the callback two raw byte spans; the adapter decodes each
via the raw codec of T and compares with the natural Ord of T.  The decode
step is a parameter (in the source it is T::from_mdb_value). -/

/-- Ascending comparator adapter: decode both spans, compare naturally,
return the Rust i8 view of the Ordering (src/lib.rs 298-304). -/
def sort {T : Type} [LinearOrder T] (decode : ByteSpan → T)
    (lhs_val rhs_val : ByteSpan) : Int :=
  ordToInt (compare (decode lhs_val) (decode rhs_val))

/-- Descending comparator adapter: as sort but with the Ordering reversed
(src/lib.rs 306-311). -/
def sort_reverse {T : Type} [LinearOrder T] (decode : ByteSpan → T)
    (lhs_val rhs_val : ByteSpan) : Int :=
  ordToInt ((compare (decode lhs_val) (decode rhs_val)).swap)

/-! ## Store model

Modelled from the spec: the backing store (lmdb) is an external collaborator
whose code is not part of this repository; sections 4.5, 4.6 and 6 of the
spec give its contract.  A duplicate-enabled Database is a list of
(key, value) entries kept sorted by the effective order (key ascending,
value per the installed duplicate comparator, numeric by default for the
integer-duplicate tables), with exact-match duplicate collapsing.  A Cursor
is a position into that sorted list. -/

/-- Modelled from the spec: one named sub-database bound to a transaction
(glossary, section 3).  Holds the stored entries plus the duplicate
comparator installed via set_dupsort, if any. -/
structure Database (K V : Type) where
  entries : List (K × V)
  dupCmp : Option (V → V → Int)

/-- Modelled from the spec: set_dupsort installs a duplicate-value
comparator on the bound database (section 6, spec line on
set_duplicate_comparator). -/
def Database.set_dupsort {K V : Type} (db : Database K V)
    (cmp : V → V → Int) : MdbResult (Database K V) :=
  .ok { db with dupCmp := some cmp }

/-- Default numeric comparison used when no comparator is installed: the
integer-duplicate tables declare integer keys and values, which the store
then orders numerically. -/
def defaultCmp (a b : Nat) : Int := ordToInt (compare a b)

/-- Effective entry order of an integer-keyed duplicate table: key
ascending, value by the duplicate comparator (spec section 4.6, tie-break
policy). -/
def entryLt (cmp : Nat → Nat → Int) (a b : Nat × Nat) : Bool :=
  decide (a.1 < b.1) || (decide (a.1 = b.1) && decide (cmp a.2 b.2 < 0))

/-- Insertion into the sorted position of a list. -/
def insertSorted {α : Type} (lt : α → α → Bool) (x : α) : List α → List α
  | [] => [x]
  | y :: ys => if lt x y then x :: y :: ys else y :: insertSorted lt x ys

/-- Modelled from the spec: the set primitive of the store on a
duplicate-enabled table adds the value to the ordered set of values under
the key, collapsing exact-match duplicates (spec sections 4.5 and 8). -/
def Database.dbSet (db : Database Nat Nat) (k v : Nat) : Database Nat Nat :=
  if (k, v) ∈ db.entries then db
  else { db with
         entries := insertSorted (entryLt (db.dupCmp.getD defaultCmp)) (k, v) db.entries }

/-- Modelled from the spec: the get primitive returns the first value under
the key, NotFound when absent (spec section 4.5). -/
def Database.dbGet (db : Database Nat Nat) (k : Nat) : MdbResult Nat :=
  match db.entries.find? (fun e => e.1 = k) with
  | some e => .ok e.2
  | none => .error .NotFound

/-- Cursor state: a position into the sorted entry list, or unpositioned. -/
structure CursorSt where
  pos : Option Nat
deriving DecidableEq, Repr

namespace Cursor

/-- A freshly spawned cursor, positioned before the first entry. -/
def init : CursorSt := ⟨none⟩

/-- Modelled from the spec: to_key moves to the first duplicate value of
the key, NotFound if the key is absent (spec section 4.6). -/
def to_key (db : Database Nat Nat) (_c : CursorSt) (k : Nat) :
    MdbResult CursorSt :=
  match db.entries.findIdx? (fun e => e.1 = k) with
  | some i => .ok ⟨some i⟩
  | none => .error .NotFound

/-- Modelled from the spec: to_item moves exactly to the duplicate pair
(k, v); NotFound if that exact pair does not exist (spec section 4.6). -/
def to_item (db : Database Nat Nat) (_c : CursorSt) (k v : Nat) :
    MdbResult CursorSt :=
  match db.entries.findIdx? (fun e => e = (k, v)) with
  | some i => .ok ⟨some i⟩
  | none => .error .NotFound

/-- Modelled from the spec: to_next_item moves one duplicate position
forward, crossing key boundaries; NotFound when no further entries exist
(spec section 4.6).  An unpositioned cursor moves to the first entry. -/
def to_next_item (db : Database Nat Nat) (c : CursorSt) :
    MdbResult CursorSt :=
  match c.pos with
  | some i =>
      if i + 1 < db.entries.length then .ok ⟨some (i + 1)⟩
      else .error .NotFound
  | none =>
      if 0 < db.entries.length then .ok ⟨some 0⟩ else .error .NotFound

/-- Modelled from the spec: get reads the entry at the current position,
NotFound if unpositioned or exhausted (spec section 4.6). -/
def get (db : Database Nat Nat) (c : CursorSt) : MdbResult (Nat × Nat) :=
  match c.pos with
  | some i =>
      match db.entries[i]? with
      | some e => .ok e
      | none => .error .NotFound
  | none => .error .NotFound

end Cursor

/-! ## The store interface consumed by the typed layer

The typed Table methods in src/lib.rs delegate through exactly these lmdb
primitives (spec section 6); the record keeps the delegation abstract so
that the theorems about pure control flow of the typed layer quantify over
every store behaviour, while listStore below instantiates it with the
concrete model. -/

/-- The store primitives a Table method body touches: cursor creation,
exact-pair cursor positioning, set and get (spec section 6). -/
structure Store (K V σ : Type) where
  newCursor : σ → MdbResult Unit
  toItem : σ → K → V → MdbResult Unit
  set : σ → K → V → MdbResult σ
  get : σ → K → MdbResult V

/-- The concrete store model over integer keys and values. -/
def listStore : Store Nat Nat (Database Nat Nat) where
  newCursor _ := .ok ()
  toItem db k v := (Cursor.to_item db Cursor.init k v).map (fun _ => ())
  set db k v := .ok (db.dbSet k v)
  get db k := db.dbGet k

namespace Table

variable {K V σ : Type}

/-- Table set (src/lib.rs 136-139): delegates to the set primitive of the
store.  Mutation through a shared reference is state passing: the second
component is the database after the call, unchanged when the store call
fails. -/
def set (S : Store K V σ) (db : σ) (key : K) (value : V) :
    MdbResult Unit × σ :=
  match S.set db key value with
  | .ok db2 => (.ok (), db2)
  | .error e => (.error e, db)

/-- Table has_item (src/lib.rs 154-162): spawns a transient cursor,
positions it on the exact pair, converts NotFound to false, success to
true, and forwards any other error. -/
def has_item (S : Store K V σ) (db : σ) (key : K) (value : V) :
    MdbResult Bool :=
  match S.newCursor db with
  | .error e => .error e
  | .ok _ =>
      match S.toItem db key value with
      | .ok _ => .ok true
      | .error .NotFound => .ok false
      | .error e => .error e

/-- Table insert_item (src/lib.rs 146-152): checks has_item first, fails
with KeyExists when the exact pair is present, otherwise falls through to
set. -/
def insert_item (S : Store K V σ) (db : σ) (key : K) (value : V) :
    MdbResult Unit × σ :=
  match has_item S db key value with
  | .error e => (.error e, db)
  | .ok true => (.error .KeyExists, db)
  | .ok false => set S db key value

/-- Table get (src/lib.rs 164-167): delegates to the get primitive. -/
def get (S : Store K V σ) (db : σ) (key : K) : MdbResult V :=
  S.get db key

/-- Modelled from the spec: get_or is absent from src/lib.rs; only the
Table operation list (spec section 4.5) and the error-handling policy
(spec section 7) describe it: like get, but substituting the default on
NotFound and propagating any other error. -/
def get_or (S : Store K V σ) (db : σ) (key : K) (dflt : V) : MdbResult V :=
  match get S db key with
  | .ok v => .ok v
  | .error .NotFound => .ok dflt
  | .error e => .error e

end Table

/-- The transaction-scoped typed view over a database
(src/lib.rs 129-133): a store Database handle tagged with the table
definition (the tag is type-level only and carries no runtime state). -/
structure Table (σ : Type) where
  db : σ

namespace TableHandle

/-- TableHandle bind_transaction (src/lib.rs 104-112): binds the handle
inside the transaction, runs prepare_database of the schema on the bound
database, propagates its failure, and otherwise wraps the database in a
Table.  The bind primitive of the store itself is infallible. -/
def bind_transaction {σ : Type} (prepare : σ → MdbResult σ) (boundDb : σ) :
    MdbResult (Table σ) :=
  match prepare boundDb with
  | .ok db2 => .ok ⟨db2⟩
  | .error e => .error e

/-- TableHandle bind_reader (src/lib.rs 116-125): identical control flow
against a readonly transaction. -/
def bind_reader {σ : Type} (prepare : σ → MdbResult σ) (boundDb : σ) :
    MdbResult (Table σ) :=
  match prepare boundDb with
  | .ok db2 => .ok ⟨db2⟩
  | .error e => .error e

end TableHandle

/-! ## Table classes (src/lib.rs 375-446)

Each table class fixes the key and value types and a prepare_database
step.  Three of the four use natural byte ordering and a no-op prepare;
Unique__Id64_Id64Rev installs the descending comparator adapter on the
duplicate values.  In the store, the comparator receives the stored raw
bytes of the two values, which for Id64 values are their 8-byte
little-endian encodings. -/

namespace table_classes

/-- prepare_database of Unique__Id64_Id64 (src/lib.rs 389): default sort
order for key and value, no store interaction. -/
def Unique__Id64_Id64.prepare_database (db : Database Nat Nat) :
    MdbResult (Database Nat Nat) :=
  .ok db

/-- prepare_database of Unique__Id64_Id64Rev (src/lib.rs 407-409):
installs the reverse sort adapter for the Id64 values via set_dupsort.
The adapter receives the stored byte spans, hence the composition with the
little-endian encoding. -/
def Unique__Id64_Id64Rev.prepare_database (db : Database Nat Nat) :
    MdbResult (Database Nat Nat) :=
  db.set_dupsort
    (fun a b => sort_reverse bytesToNatLE (natToBytesLE 8 a) (natToBytesLE 8 b))

/-- prepare_database of Unique__Id64x2_Id64 (src/lib.rs 425): default sort
order, no store interaction. -/
def Unique__Id64x2_Id64.prepare_database (db : Database Id64x2 Nat) :
    MdbResult (Database Id64x2 Nat) :=
  .ok db

/-- prepare_database of UniqueKey__Id64_Blob (src/lib.rs 445): default
sort order, no store interaction. -/
def UniqueKey__Id64_Blob.prepare_database (db : Database Nat ByteSpan) :
    MdbResult (Database Nat ByteSpan) :=
  .ok db

end table_classes

/-! ## The concrete scenario of the ordering-fidelity test
(src/lib.rs 480-515): a Unique__Id64_Id64Rev table, the value sequence of
the test inserted under key 1. -/

/-- The duplicate values the test stores under key 1 (src/lib.rs 480-490,
also spec section 8, ordering fidelity). -/
def testValues : List Nat := [200, 100, 2, 2, 2, 2, 1, 2, 3, 100]

/-- An empty descending table: a fresh database after prepare_database of
Unique__Id64_Id64Rev ran on it. -/
def dbRev : Database Nat Nat :=
  (table_classes.Unique__Id64_Id64Rev.prepare_database ⟨[], none⟩).toOption.getD
    ⟨[], none⟩

/-- The descending table after all test values were stored under key 1
through Table set. -/
def db8 : Database Nat Nat :=
  testValues.foldl (fun d v => (Table.set listStore d 1 v).2) dbRev

/-- A store whose cursor positioning reports a pass-through error, used to
exercise the error-forwarding branch of has_item. -/
def errStore : Store Nat Nat Unit where
  newCursor _ := .ok ()
  toItem _ _ _ := .error (.Other 5)
  set _ _ _ := .ok ()
  get _ _ := .error (.Other 5)

/-! ## Helper lemmas -/

theorem findIdx?_isSome_iff {α : Type} (p : α → Bool) (l : List α) (i : Nat) :
    (l.findIdx? p i).isSome ↔ ∃ x ∈ l, p x := by
  induction l generalizing i with
  | nil => simp [List.findIdx?]
  | cons a as ih =>
      by_cases h : p a
      · simp [List.findIdx?, h]
      · simp [List.findIdx?, h, ih]

/-- On the concrete store, has_item computes exactly the membership of the
pair in the entry list. -/
theorem has_item_listStore (db : Database Nat Nat) (k v : Nat) :
    Table.has_item listStore db k v = .ok (decide ((k, v) ∈ db.entries)) := by
  have hmem : ((db.entries.findIdx? (fun e => e = (k, v)) 0).isSome
      ↔ (k, v) ∈ db.entries) := by
    rw [findIdx?_isSome_iff]
    constructor
    · rintro ⟨x, hx, he⟩
      rw [decide_eq_true_iff] at he
      exact he ▸ hx
    · intro hx
      exact ⟨(k, v), hx, by simp⟩
  cases h : db.entries.findIdx? (fun e => e = (k, v)) 0 with
  | none =>
      have : ¬ (k, v) ∈ db.entries := by
        rw [← hmem, h]; simp
      simp [Table.has_item, listStore, Cursor.to_item, h, this, Except.map]
  | some i =>
      have : (k, v) ∈ db.entries := by
        rw [← hmem, h]; simp
      simp [Table.has_item, listStore, Cursor.to_item, h, this, Except.map]

theorem take_append_length {α : Type} (l₁ l₂ : List α) (n : Nat)
    (h : l₁.length = n) : (l₁ ++ l₂).take n = l₁ := by
  subst h; exact List.take_left l₁ l₂

theorem drop_append_length {α : Type} (l₁ l₂ : List α) (n : Nat)
    (h : l₁.length = n) : (l₁ ++ l₂).drop n = l₂ := by
  subst h; exact List.drop_left l₁ l₂

theorem mem_insertSorted {α : Type} (lt : α → α → Bool) (x : α) (l : List α) :
    x ∈ insertSorted lt x l := by
  induction l with
  | nil => simp [insertSorted]
  | cons y ys ih =>
      by_cases h : lt x y <;> simp [insertSorted, h, ih]

/-! ## Claim theorems -/

/-- C1: Table insert_item of key k and value v fails with KeyExists when
the exact (k, v) pair already lives in the table, and otherwise behaves
exactly as Table set: it stores the pair and returns success. -/
theorem insert_item_spec (db : Database Nat Nat) (k v : Nat) :
    ((k, v) ∈ db.entries →
        Table.insert_item listStore db k v = (.error .KeyExists, db)) ∧
    ((k, v) ∉ db.entries →
        Table.insert_item listStore db k v = Table.set listStore db k v ∧
        (Table.set listStore db k v).1 = .ok () ∧
        (k, v) ∈ (Table.set listStore db k v).2.entries) := by
  constructor
  · intro hm
    simp [Table.insert_item, has_item_listStore, hm]
  · intro hm
    refine ⟨?_, ?_, ?_⟩
    · simp [Table.insert_item, has_item_listStore, hm]
    · simp [Table.set, listStore]
    · simp [Table.set, listStore, Database.dbSet, hm]
      exact mem_insertSorted _ _ _

/-- Witness for C1 on a concrete table: the pair (1, 2) is present, so
inserting it again fails with KeyExists; the pair (1, 3) is absent, so
inserting it behaves as set and stores the pair. -/
theorem insert_item_spec_witness :
    Table.insert_item listStore ⟨[(1, 2)], none⟩ 1 2
        = (.error .KeyExists, ⟨[(1, 2)], none⟩) ∧
    Table.insert_item listStore ⟨[(1, 2)], none⟩ 1 3
        = Table.set listStore ⟨[(1, 2)], none⟩ 1 3 ∧
    (1, 3) ∈ (Table.set listStore (⟨[(1, 2)], none⟩ : Database Nat Nat) 1 3).2.entries :=
  ⟨(insert_item_spec ⟨[(1, 2)], none⟩ 1 2).1 (by simp),
   ((insert_item_spec ⟨[(1, 2)], none⟩ 1 3).2 (by simp)).1,
   ((insert_item_spec ⟨[(1, 2)], none⟩ 1 3).2 (by simp)).2.2⟩

/-- C2: Table has_item of key k and value v returns ok false when the
exact-pair cursor positioning reports NotFound, ok true when it succeeds,
and forwards any other positioning error unchanged, for every store
behaviour. -/
theorem has_item_spec {K V σ : Type} (S : Store K V σ) (db : σ) (k : K)
    (v : V) (hc : S.newCursor db = .ok ()) :
    (S.toItem db k v = .ok () → Table.has_item S db k v = .ok true) ∧
    (S.toItem db k v = .error .NotFound →
        Table.has_item S db k v = .ok false) ∧
    (∀ e, e ≠ MdbError.NotFound → S.toItem db k v = .error e →
        Table.has_item S db k v = .error e) := by
  refine ⟨?_, ?_, ?_⟩
  · intro h
    simp [Table.has_item, hc, h]
  · intro h
    simp [Table.has_item, hc, h]
  · intro e hne h
    cases e
    case NotFound => exact absurd rfl hne
    all_goals simp [Table.has_item, hc, h]

/-- Witness for C2: on a concrete table the present pair gives ok true and
the absent pair ok false, and a store whose positioning reports a
pass-through error sees that error forwarded unchanged. -/
theorem has_item_spec_witness :
    Table.has_item listStore ⟨[(1, 2)], none⟩ 1 2 = .ok true ∧
    Table.has_item listStore ⟨[(1, 2)], none⟩ 1 3 = .ok false ∧
    Table.has_item errStore () 1 2 = .error (.Other 5) :=
  ⟨(has_item_spec listStore ⟨[(1, 2)], none⟩ 1 2 rfl).1 rfl,
   (has_item_spec listStore ⟨[(1, 2)], none⟩ 1 3 rfl).2.1 rfl,
   (has_item_spec errStore () 1 2 rfl).2.2 (.Other 5) (by simp) rfl⟩

/-- C3: Table get_or of key k and default d returns the value of get k
when the key is present and returns d when get k fails with NotFound
(modelled from the spec, sections 4.5 and 7; get_or is absent from
src/lib.rs). -/
theorem get_or_spec {K V σ : Type} (S : Store K V σ) (db : σ) (k : K)
    (d : V) :
    (∀ v, Table.get S db k = .ok v → Table.get_or S db k d = .ok v) ∧
    (Table.get S db k = .error .NotFound →
        Table.get_or S db k d = .ok d) := by
  constructor
  · intro v h
    simp [Table.get_or, h]
  · intro h
    simp [Table.get_or, h]

/-- Witness for C3: on a concrete table with the entry (1, 7), get_or of
key 1 returns 7 and get_or of the absent key 2 returns the default 9. -/
theorem get_or_spec_witness :
    Table.get_or listStore ⟨[(1, 7)], none⟩ 1 9 = .ok 7 ∧
    Table.get_or listStore ⟨[(1, 7)], none⟩ 2 9 = .ok 9 :=
  ⟨(get_or_spec listStore ⟨[(1, 7)], none⟩ 1 9).1 7 rfl,
   (get_or_spec listStore ⟨[(1, 7)], none⟩ 2 9).2 rfl⟩

/-- C4: binding a TableHandle to a live transaction, read-write or
read-only, runs prepare_database of the schema on the bound database and
wraps its output in the returned Table; when prepare fails, the binding
operation returns exactly that failure, for every prepare behaviour. -/
theorem bind_prepare_spec {σ : Type} (prepare : σ → MdbResult σ) (db : σ) :
    (∀ db2, prepare db = .ok db2 →
        TableHandle.bind_transaction prepare db = .ok ⟨db2⟩ ∧
        TableHandle.bind_reader prepare db = .ok ⟨db2⟩) ∧
    (∀ e, prepare db = .error e →
        TableHandle.bind_transaction prepare db = .error e ∧
        TableHandle.bind_reader prepare db = .error e) := by
  constructor
  · intro db2 h
    simp [TableHandle.bind_transaction, TableHandle.bind_reader, h]
  · intro e h
    simp [TableHandle.bind_transaction, TableHandle.bind_reader, h]

/-- Witness for C4: the no-op prepare of Unique__Id64_Id64 makes both
binds return the wrapped database, and a failing prepare makes both binds
return its error. -/
theorem bind_prepare_spec_witness :
    TableHandle.bind_transaction table_classes.Unique__Id64_Id64.prepare_database
        ⟨[], none⟩ = .ok ⟨⟨[], none⟩⟩ ∧
    TableHandle.bind_reader
        (fun (_ : Database Nat Nat) => .error (.Other 3)) ⟨[], none⟩
        = .error (.Other 3) :=
  ⟨((bind_prepare_spec table_classes.Unique__Id64_Id64.prepare_database
      ⟨[], none⟩).1 ⟨[], none⟩ rfl).1,
   ((bind_prepare_spec (fun (_ : Database Nat Nat) => .error (.Other 3))
      ⟨[], none⟩).2 (.Other 3) rfl).2⟩

/-- C5: for every type with a total order and every pair of byte spans,
the ascending adapter returns the sign of the natural comparison of the
decoded values, and the descending adapter is exactly the reverse: it
equals the ascending adapter on the swapped operands, equivalently the
negation of the ascending adapter. -/
theorem sort_reverse_spec {T : Type} [LinearOrder T]
    (decode : ByteSpan → T) (lhs rhs : ByteSpan) :
    sort decode lhs rhs = ordToInt (compare (decode lhs) (decode rhs)) ∧
    sort_reverse decode lhs rhs = sort decode rhs lhs ∧
    sort_reverse decode lhs rhs = - sort decode lhs rhs := by
  refine ⟨rfl, ?_, ?_⟩
  · unfold sort sort_reverse
    rw [Batteries.OrientedCmp.symm]
  · unfold sort sort_reverse
    cases compare (decode lhs) (decode rhs) <;> rfl

/-- C6: encoding a fixed-layout composite value to its raw bytes and
decoding those bytes yields the original value, for Id64x2 and Idx16Id64
with fields inside their machine-integer ranges. -/
theorem codec_roundtrip (x : Id64x2) (y : Idx16Id64) (h0 : x.f0 < 2 ^ 64)
    (h1 : x.f1 < 2 ^ 64) (h2 : y.f0 < 2 ^ 16) (h3 : y.f1 < 2 ^ 64) :
    Id64x2.from_mdb_value (Id64x2.to_mdb_value x) = some x ∧
    Idx16Id64.from_mdb_value (Idx16Id64.to_mdb_value y) = some y := by
  have hp64 : (256 : Nat) ^ 8 = 2 ^ 64 := by norm_num
  have hp16 : (256 : Nat) ^ 2 = 2 ^ 16 := by norm_num
  constructor
  · unfold Id64x2.from_mdb_value Id64x2.to_mdb_value Id64x2.byteSize
    rw [if_pos (by simp [natToBytesLE_length])]
    rw [take_append_length _ _ _ (natToBytesLE_length 8 x.f0)]
    rw [drop_append_length _ _ _ (natToBytesLE_length 8 x.f0)]
    rw [bytesToNatLE_natToBytesLE, bytesToNatLE_natToBytesLE, hp64]
    rw [Nat.mod_eq_of_lt h0, Nat.mod_eq_of_lt h1]
  · unfold Idx16Id64.from_mdb_value Idx16Id64.to_mdb_value Idx16Id64.byteSize
    rw [if_pos (by simp [natToBytesLE_length])]
    rw [take_append_length _ _ _ (natToBytesLE_length 2 y.f0)]
    rw [drop_append_length _ _ _ (natToBytesLE_length 2 y.f0)]
    rw [bytesToNatLE_natToBytesLE, bytesToNatLE_natToBytesLE, hp64, hp16]
    rw [Nat.mod_eq_of_lt h2, Nat.mod_eq_of_lt h3]

/-- Witness for C6 at concrete values. -/
theorem codec_roundtrip_witness :
    Id64x2.from_mdb_value (Id64x2.to_mdb_value ⟨1, 2⟩) = some ⟨1, 2⟩ ∧
    Idx16Id64.from_mdb_value (Idx16Id64.to_mdb_value ⟨3, 4⟩) = some ⟨3, 4⟩ :=
  codec_roundtrip ⟨1, 2⟩ ⟨3, 4⟩ (by norm_num) (by norm_num) (by norm_num)
    (by norm_num)

/-- C7: decoding a raw span into a fixed-size composite type succeeds
exactly when the span length matches the byte size of the type, and fails
fatally (modelled as none, the assertion failure) on any other length. -/
theorem decode_length_spec (value : ByteSpan) :
    ((Id64x2.from_mdb_value value).isSome ↔ value.length = 16) ∧
    ((Idx16Id64.from_mdb_value value).isSome ↔ value.length = 10) := by
  constructor
  · unfold Id64x2.from_mdb_value Id64x2.byteSize
    split <;> simp_all
  · unfold Idx16Id64.from_mdb_value Idx16Id64.byteSize
    split <;> simp_all

/-- C8: in the duplicate-enabled descending table holding the test values
200, 100, 2, 2, 2, 2, 1, 2, 3, 100 under key 1, positioning with to_key
on key 1 and stepping with to_next_item yields the value sequence
200, 100, 3, 2, 1 and then NotFound. -/
theorem descending_iteration :
    Cursor.to_key db8 Cursor.init 1 = .ok ⟨some 0⟩ ∧
    Cursor.get db8 ⟨some 0⟩ = .ok (1, 200) ∧
    Cursor.to_next_item db8 ⟨some 0⟩ = .ok ⟨some 1⟩ ∧
    Cursor.get db8 ⟨some 1⟩ = .ok (1, 100) ∧
    Cursor.to_next_item db8 ⟨some 1⟩ = .ok ⟨some 2⟩ ∧
    Cursor.get db8 ⟨some 2⟩ = .ok (1, 3) ∧
    Cursor.to_next_item db8 ⟨some 2⟩ = .ok ⟨some 3⟩ ∧
    Cursor.get db8 ⟨some 3⟩ = .ok (1, 2) ∧
    Cursor.to_next_item db8 ⟨some 3⟩ = .ok ⟨some 4⟩ ∧
    Cursor.get db8 ⟨some 4⟩ = .ok (1, 1) ∧
    Cursor.to_next_item db8 ⟨some 4⟩ = .error .NotFound :=
  ⟨rfl, rfl, rfl, rfl, rfl, rfl, rfl, rfl, rfl, rfl, rfl⟩

/-- C9: the prepare_database step of the three natural-byte-order table
classes returns success with the bound database completely unchanged, so
binding such a table through bind_transaction or bind_reader always
returns the table view untouched. -/
theorem prepare_noop_spec (db1 : Database Nat Nat)
    (db2 : Database Id64x2 Nat) (db3 : Database Nat ByteSpan) :
    table_classes.Unique__Id64_Id64.prepare_database db1 = .ok db1 ∧
    table_classes.Unique__Id64x2_Id64.prepare_database db2 = .ok db2 ∧
    table_classes.UniqueKey__Id64_Blob.prepare_database db3 = .ok db3 ∧
    TableHandle.bind_transaction
        table_classes.Unique__Id64_Id64.prepare_database db1 = .ok ⟨db1⟩ ∧
    TableHandle.bind_reader
        table_classes.Unique__Id64_Id64.prepare_database db1 = .ok ⟨db1⟩ :=
  ⟨rfl, rfl, rfl, rfl, rfl⟩

/-- C10: when insert_item returns the KeyExists error the table contents
are exactly as before the call: for every store the positive existence
check short-circuits to KeyExists with the input database untouched and
the set primitive never invoked, and on the concrete store a KeyExists
result always leaves the entry list unchanged. -/
theorem insert_item_keyexists_frame {K V σ : Type} (S : Store K V σ)
    (db : σ) (k : K) (v : V) (db0 : Database Nat Nat) (k0 v0 : Nat) :
    (Table.has_item S db k v = .ok true →
        Table.insert_item S db k v = (.error .KeyExists, db)) ∧
    ((Table.insert_item listStore db0 k0 v0).1 = .error .KeyExists →
        (Table.insert_item listStore db0 k0 v0).2 = db0) := by
  constructor
  · intro h
    simp [Table.insert_item, h]
  · by_cases hm : (k0, v0) ∈ db0.entries
    · simp [Table.insert_item, has_item_listStore, hm]
    · intro habs
      exfalso
      unfold Table.insert_item at habs
      rw [has_item_listStore] at habs
      simp [hm, Table.set, listStore] at habs

/-- Witness for C10 on a concrete table: the duplicate insertion of the
present pair (1, 2) reports KeyExists and hands back the table with the
entry list unchanged. -/
theorem insert_item_keyexists_frame_witness :
    Table.insert_item listStore ⟨[(1, 2)], none⟩ 1 2
        = (.error .KeyExists, ⟨[(1, 2)], none⟩) ∧
    (Table.insert_item listStore (⟨[(1, 2)], none⟩ : Database Nat Nat) 1 2).2
        = ⟨[(1, 2)], none⟩ :=
  ⟨(insert_item_keyexists_frame listStore ⟨[(1, 2)], none⟩ 1 2
      ⟨[(1, 2)], none⟩ 1 2).1 (by simp [has_item_listStore]),
   (insert_item_keyexists_frame listStore ⟨[(1, 2)], none⟩ 1 2
      ⟨[(1, 2)], none⟩ 1 2).2 rfl⟩

end TypedLmdb
